import Mathlib

/-!
Verification development for the skin-cancer diagnosis pipeline
(`app/utils.py`, `app/model_loader.py`, `app/app.py`).

Machine `uint8` pixel values are embedded as `ℕ` (kept in `[0,255]` by the
operations themselves), `float32` arithmetic as exact `ℚ` arithmetic, and
fallible Python code (`try`/`except` returning `None`) as `Option`.
External library calls whose outcome depends on data not in the repository
(the byte-level image decoder, the trained Keras model's forward pass, the
`tf_keras_vis` Grad-CAM gradient computation) are parameters of the embedded
functions; the library steps with fixed known semantics (OpenCV colour
conversion, histogram equalization, bilinear resize, `tf_keras_vis.utils.normalize`)
are embedded directly.
-/

/-- A raster image: a list of rows. -/
abbrev Mat (α : Type) : Type := List (List α)

/-- A 3-channel `uint8` pixel in OpenCV's BGR channel order: `(b, g, r)`. -/
abbrev Pix3 : Type := ℕ × ℕ × ℕ

/-- A 3-channel rational pixel (the `float32` tensor values). -/
abbrev Q3 : Type := ℚ × ℚ × ℚ

/-- OpenCV `cvtColor(-, COLOR_BGR2GRAY)` on one `uint8` pixel: the fixed-point
formula `(B*1868 + G*9617 + R*4899 + 2^13) >> 14` (the coefficients are
`0.114`, `0.587`, `0.299` scaled by `2^14`). -/
def grayOfBGR (p : Pix3) : ℕ :=
  (1868 * p.1 + 9617 * p.2.1 + 4899 * p.2.2 + 8192) / 16384

/-- `cv2.cvtColor(image, cv2.COLOR_BGR2GRAY)` (utils.py line 29). -/
def cvtColorBGR2GRAY (m : Mat Pix3) : Mat ℕ :=
  m.map (fun row => row.map grayOfBGR)

/-- Number of pixels of `g` with gray level `v`. -/
def histCount (g : Mat ℕ) (v : ℕ) : ℕ :=
  (g.map (fun row => (row.filter (fun x => x == v)).length)).sum

/-- Total number of pixels of `g`. -/
def totalPixels (g : Mat ℕ) : ℕ := (g.map List.length).sum

/-- The lowest gray level occurring in `g` (OpenCV's `while (!hist[i]) ++i`). -/
def minLevel (g : Mat ℕ) : ℕ :=
  ((List.range 256).find? (fun v => decide (0 < histCount g v))).getD 0

/-- Cumulative histogram of `g` up to and including level `v`. -/
def cdfUpTo (g : Mat ℕ) (v : ℕ) : ℕ :=
  ((List.range (v + 1)).map (histCount g)).sum

/-- Round half up and clamp into `uint8` range (OpenCV `saturate_cast<uchar>`
of a nonnegative value; exact ties cannot reach the next integer above 255
here because the scaled cumulative sums are at most 255). -/
def roundQ (x : ℚ) : ℕ := (⌊x + 1/2⌋).toNat

/-- The equalization lookup table OpenCV builds: `lut[i0] = 0` and for
`v > i0`, `lut[v] = round((Σ_{i0 < k ≤ v} hist k) * 255 / (total − hist i0))`,
saturated into `[0,255]`. Levels below the minimum occurring level are never
looked up. -/
def eqLut (g : Mat ℕ) (v : ℕ) : ℕ :=
  if v ≤ minLevel g then 0
  else
    min 255 (roundQ (((cdfUpTo g v - cdfUpTo g (minLevel g) : ℕ) : ℚ) * 255 /
      ((totalPixels g - histCount g (minLevel g) : ℕ) : ℚ)))

/-- `cv2.equalizeHist(gray)` (utils.py line 32): if the image is constant the
output is set to that constant level; otherwise every pixel is mapped through
the lookup table. -/
def equalizeHist (g : Mat ℕ) : Mat ℕ :=
  if histCount g (minLevel g) = totalPixels g then
    g.map (fun row => row.map (fun _ => minLevel g))
  else
    g.map (fun row => row.map (eqLut g))

/-- `cv2.cvtColor(equalized, cv2.COLOR_GRAY2RGB)` (utils.py line 35):
replicate the single channel three times. -/
def cvtColorGRAY2RGB (g : Mat ℕ) : Mat Pix3 :=
  g.map (fun row => row.map (fun v => (v, v, v)))

/-- Source coordinate and interpolation fraction used by `cv2.resize` with
bilinear interpolation: `f = (i + 1/2) * srcLen / dstLen − 1/2`, split into
integer part and fractional part, with border replication at the two ends. -/
def srcIndex (srcLen dstLen i : ℕ) : ℕ × ℚ :=
  if ⌊((i : ℚ) + 1/2) * srcLen / dstLen - 1/2⌋ < 0 then (0, 0)
  else if (srcLen : ℤ) - 1 ≤ ⌊((i : ℚ) + 1/2) * srcLen / dstLen - 1/2⌋ then (srcLen - 1, 0)
  else ((⌊((i : ℚ) + 1/2) * srcLen / dstLen - 1/2⌋).toNat,
    ((i : ℚ) + 1/2) * srcLen / dstLen - 1/2 - (⌊((i : ℚ) + 1/2) * srcLen / dstLen - 1/2⌋ : ℤ))

/-- Pixel access with border value 0 (positions carrying weight 0 only). -/
def at2 (g : Mat ℕ) (y x : ℕ) : ℕ := (g.getD y []).getD x 0

/-- One bilinear sample of a single-channel image at output position
`(i, j)` of a 224×224 destination grid. -/
def bilinearAt (g : Mat ℕ) (h w i j : ℕ) : ℕ :=
  let sy := (srcIndex h 224 i).1
  let dy := (srcIndex h 224 i).2
  let sx := (srcIndex w 224 j).1
  let dx := (srcIndex w 224 j).2
  roundQ ((1 - dy) * ((1 - dx) * at2 g sy sx + dx * at2 g sy (sx + 1))
        + dy * ((1 - dx) * at2 g (sy + 1) sx + dx * at2 g (sy + 1) (sx + 1)))

/-- Channel extraction helpers for per-channel resizing. -/
def channelB (m : Mat Pix3) : Mat ℕ := m.map (fun row => row.map (fun p => p.1))

/-- Second channel of a 3-channel image. -/
def channelG (m : Mat Pix3) : Mat ℕ := m.map (fun row => row.map (fun p => p.2.1))

/-- Third channel of a 3-channel image. -/
def channelR (m : Mat Pix3) : Mat ℕ := m.map (fun row => row.map (fun p => p.2.2))

/-- `cv2.resize(rgb, (224, 224))` (utils.py line 38) with the default
bilinear interpolation, applied per channel. -/
def resize224 (m : Mat Pix3) : Mat Pix3 :=
  let h := m.length
  let w := (m.getD 0 []).length
  (List.range 224).map (fun i => (List.range 224).map (fun j =>
    (bilinearAt (channelB m) h w i j,
     bilinearAt (channelG m) h w i j,
     bilinearAt (channelR m) h w i j)))

/-- Per-channel ImageNet means (utils.py line 9). -/
def meanCh : List ℚ := [0.485, 0.456, 0.406]

/-- Per-channel ImageNet standard deviations (utils.py line 10). -/
def stdCh : List ℚ := [0.229, 0.224, 0.225]

/-- `resized.astype(np.float32) / 255.0` (utils.py line 41). -/
def scale01 (m : Mat Pix3) : Mat Q3 :=
  m.map (fun row => row.map (fun p =>
    ((p.1 : ℚ) / 255, (p.2.1 : ℚ) / 255, (p.2.2 : ℚ) / 255)))

/-- The per-channel loop `normalized[:, :, i] = (normalized[:, :, i] - mean[i]) / std[i]`
(utils.py lines 44–45). -/
def standardize (m : Mat Q3) : Mat Q3 :=
  m.map (fun row => row.map (fun q =>
    ((q.1 - meanCh.getD 0 0) / stdCh.getD 0 1,
     (q.2.1 - meanCh.getD 1 0) / stdCh.getD 1 1,
     (q.2.2 - meanCh.getD 2 0) / stdCh.getD 2 1)))

/-- The deterministic body of `ImagePreprocessor.preprocess` on a decoded
image: grayscale, histogram equalization, channel replication, bilinear
resize to 224×224, scaling to `[0,1]`, ImageNet standardization. -/
def preprocessCore (image : Mat Pix3) : Mat Q3 :=
  standardize (scale01 (resize224 (cvtColorGRAY2RGB (equalizeHist (cvtColorBGR2GRAY image)))))

/-- `ImagePreprocessor.preprocess` (utils.py lines 12–51). The byte-level
decoder `cv2.imdecode` is a parameter: it returns `none` exactly when the
bytes cannot be decoded, in which case the `raise`/`except` path returns
`None`. -/
def preprocess (imdecode : List ℕ → Option (Mat Pix3)) (bytes : List ℕ) : Option (Mat Q3) :=
  match imdecode bytes with
  | none => none
  | some image => some (preprocessCore image)

/-- `SkinCancerModel.class_names` (model_loader.py lines 20–28). -/
def class_names : List String :=
  ["Melanoma (MEL)",
   "Nevus (NV)",
   "Basal Cell Carcinoma (BCC)",
   "Actinic Keratoses (AKIEC)",
   "Benign Keratosis (BKL)",
   "Dermatofibroma (DF)",
   "Vascular lesions (VASC)"]

/-- Largest value of a nonempty list, computed as `foldl max` (the value
`np.argmax` selects the first index of). -/
def maxOf (x : ℚ) (xs : List ℚ) : ℚ := xs.foldl max x

/-- `np.argmax(predictions[0])` (model_loader.py line 105): first index of a
maximal element; `none` on an empty array (where NumPy raises). -/
def argmaxIdx : List ℚ → Option ℕ
  | [] => none
  | x :: xs => some ((x :: xs).findIdx (fun v => decide (maxOf x xs ≤ v)))

/-- The `probabilities` dictionary built by `SkinCancerModel.predict`
(model_loader.py lines 109–111): one `class_names[i] ↦ prob*100` entry per
score. An output wider than the 7 class names would raise an `IndexError`
(→ `none`, swallowed by the `except` clause). -/
def buildProbs (preds : List ℚ) : Option (List (String × ℚ)) :=
  if preds.length ≤ 7 then some (class_names.zip (preds.map (fun p => p * 100)))
  else none

/-- The `try` body of `SkinCancerModel.predict` on the model's raw output:
argmax, confidence `predictions[0][predicted_class] * 100`, and the
probability dictionary. -/
def predictBody (preds : List ℚ) : Option (ℕ × ℚ × List (String × ℚ)) :=
  match argmaxIdx preds with
  | none => none
  | some i =>
    match buildProbs preds with
    | none => none
    | some ps => some (i, preds.getD i 0 * 100, ps)

/-- `SkinCancerModel.predict` (model_loader.py lines 94–117). The forward
pass of the trained Keras model is a parameter (`forward = none` models a
raised exception); any exception inside the `try` body yields the
`(None, None, None)` triple of the `except` clause. -/
def predict (forward : Option (List ℚ)) :
    Option ℕ × Option ℚ × Option (List (String × ℚ)) :=
  match forward with
  | none => (none, none, none)
  | some preds =>
    match predictBody preds with
    | some (i, c, p) => (some i, some c, some p)
    | none => (none, none, none)

/-- One record of `SkinCancerModel.class_info` (model_loader.py lines 31–88).
`full_name` is absent (`none`) until `get_class_info` inserts it. -/
structure ClassRecord where
  name : String
  abbr : String
  severity : String
  description : String
  action : String
  common_locations : String
  full_name : Option String
deriving DecidableEq, Repr, Inhabited

/-- The registry `SkinCancerModel.class_info` as built in `__init__`
(model_loader.py lines 31–88), indexed 0..6. -/
def initRegistry : List ClassRecord :=
  [{ name := "Melanoma", abbr := "MEL", severity := "High",
     description := "Most serious type of skin cancer. Requires immediate medical attention.",
     action := "Consult a dermatologist immediately",
     common_locations := "Face, chest, legs, back", full_name := none },
   { name := "Nevus", abbr := "NV", severity := "Low",
     description := "Common mole, usually benign but monitor for changes.",
     action := "Regular self-examination recommended",
     common_locations := "Anywhere on body", full_name := none },
   { name := "Basal Cell Carcinoma", abbr := "BCC", severity := "Medium",
     description := "Most common but least dangerous skin cancer. Rarely spreads.",
     action := "Schedule dermatologist appointment",
     common_locations := "Sun-exposed areas", full_name := none },
   { name := "Actinic Keratoses", abbr := "AKIEC", severity := "Medium-High",
     description := "Pre-cancerous growths that can develop into SCC.",
     action := "Consult dermatologist within 2-4 weeks",
     common_locations := "Face, ears, scalp, hands", full_name := none },
   { name := "Benign Keratosis", abbr := "BKL", severity := "Low",
     description := "Harmless skin growths, often called seborrheic keratosis.",
     action := "No immediate action needed",
     common_locations := "Chest, back, face", full_name := none },
   { name := "Dermatofibroma", abbr := "DF", severity := "Low",
     description := "Benign fibrous nodule, usually harmless.",
     action := "Monitor for changes",
     common_locations := "Legs, arms", full_name := none },
   { name := "Vascular lesions", abbr := "VASC", severity := "Low-Medium",
     description := "Blood vessel abnormalities, usually benign.",
     action := "Consult if changing appearance",
     common_locations := "Face, neck, upper body", full_name := none }]

/-- `SkinCancerModel.get_class_info` (model_loader.py lines 173–179). The
Python body takes a reference to the stored dict and assigns
`info['full_name'] = self.class_names[class_idx]` into it, so the registry
record itself is updated; the embedding returns the (shared) record together
with the registry state after the call. Out-of-range indices return `None`
and leave the registry unchanged. -/
def get_class_info (s : List ClassRecord) (i : ℕ) :
    Option ClassRecord × List ClassRecord :=
  if i < 7 then
    let r := { s.getD i default with full_name := some (class_names.getD i "") }
    (some r, s.set i r)
  else (none, s)

/-- A `float32` value in the Grad-CAM path: `some q` is a finite value,
`none` models a non-finite value (NaN/Inf); IEEE arithmetic propagates
non-finiteness. -/
abbrev FP : Type := Option ℚ

/-- Addition with NaN propagation. -/
def fpAdd : FP → FP → FP
  | some a, some b => some (a + b)
  | _, _ => none

/-- Subtraction with NaN propagation. -/
def fpSub : FP → FP → FP
  | some a, some b => some (a - b)
  | _, _ => none

/-- Division: NaN propagates, and a zero denominator produces a non-finite
result. -/
def fpDiv : FP → FP → FP
  | some a, some b => if b = 0 then none else some (a / b)
  | _, _ => none

/-- Binary minimum with NaN propagation (as in NumPy reductions). -/
def fpMin2 : FP → FP → FP
  | some a, some b => some (min a b)
  | _, _ => none

/-- Binary maximum with NaN propagation. -/
def fpMax2 : FP → FP → FP
  | some a, some b => some (max a b)
  | _, _ => none

/-- `np.min` over a flattened array: non-finite if any entry is. -/
def listFpMin : List FP → FP
  | [] => none
  | x :: xs => xs.foldl fpMin2 x

/-- `np.max` over a flattened array. -/
def listFpMax : List FP → FP
  | [] => none
  | x :: xs => xs.foldl fpMax2 x

/-- All entries of a matrix in row-major order. -/
def cells (m : Mat FP) : List FP := m.foldr (fun row acc => row ++ acc) []

/-- Keras backend epsilon used by `tf_keras_vis.utils.normalize`. -/
def kEpsilon : ℚ := 1 / 10 ^ 7

/-- `tf_keras_vis.utils.normalize` (called at model_loader.py line 141):
`(cam - min) / (max - min + epsilon)`, with no finiteness check. -/
def tkvNormalize (cam : Mat FP) : Mat FP :=
  let mn := listFpMin (cells cam)
  let mx := listFpMax (cells cam)
  cam.map (fun row => row.map (fun x =>
    fpDiv (fpSub x mn) (fpAdd (fpSub mx mn) (some kEpsilon))))

/-- The matplotlib figure `generate_gradcam` draws and encodes: the original
image shown next to the image overlaid with the colour-mapped heatmap.
Rasterizing and base64-encoding the figure are external; the drawn data is
the pair below. Matplotlib renders non-finite heatmap cells as blank pixels
without raising. -/
structure GradcamRender where
  original : Mat Q3
  heat : Mat FP
deriving DecidableEq, Repr

/-- `SkinCancerModel.generate_gradcam` (model_loader.py lines 119–171). The
`tf_keras_vis` gradient computation runs against the trained model, so its
raw output is a parameter: `cam = none` models the library call raising an
exception (caught by the `except` clause, which returns `None`); otherwise
the code normalizes the map and renders it. No step inspects the values for
NaN/Inf. -/
def generate_gradcam (image : Mat Q3) (cam : Option (Mat FP)) : Option GradcamRender :=
  match cam with
  | none => none
  | some c => some ⟨image, tkvNormalize c⟩

/-- The denormalization of one channel value in
`ImagePreprocessor.prepare_for_display` (utils.py lines 59–64):
`x * std + mean`, scaled by 255, clipped to `[0,255]`, truncated to `uint8`. -/
def denormCh (x m s : ℚ) : ℕ :=
  (⌊min (255 : ℚ) (max 0 ((x * s + m) * 255))⌋).toNat

/-- The `uint8` image `prepare_for_display` builds before encoding it. -/
def denormalizeMat (t : Mat Q3) : Mat Pix3 :=
  t.map (fun row => row.map (fun q =>
    (denormCh q.1 (meanCh.getD 0 0) (stdCh.getD 0 1),
     denormCh q.2.1 (meanCh.getD 1 0) (stdCh.getD 1 1),
     denormCh q.2.2 (meanCh.getD 2 0) (stdCh.getD 2 1))))

/-- The module-level binding for the name `base64` inside `app/utils.py`.
The module imports `cv2`, `numpy`, `PIL.Image` and `io` but never imports
`base64`, so the name is unbound: evaluating `base64.b64encode(...)` at
utils.py line 72 raises `NameError`. -/
def utilsBase64Binding : Option (Mat Pix3 → List Char) := none

/-- `ImagePreprocessor.prepare_for_display` (utils.py lines 53–78):
denormalize, rescale, clip, convert to a PIL image, PNG-encode and
base64-encode. The final step evaluates the unbound name `base64`, so the
body always raises `NameError`, the blanket `except` prints the error and
the function returns `None` for every input. -/
def prepare_for_display (t : Mat Q3) : Option (List Char) :=
  let d := denormalizeMat t
  match utilsBase64Binding with
  | some enc => some (enc d)
  | none => none

/-- Stable insertion used to model Python's
`sorted(probabilities.items(), key=lambda x: x[1], reverse=True)`
(app.py lines 78–80): an element is placed before the first element whose
value does not exceed it, so equal values keep their original order. -/
def insertDesc (x : String × ℚ) : List (String × ℚ) → List (String × ℚ)
  | [] => [x]
  | y :: ys => if y.2 ≤ x.2 then x :: y :: ys else y :: insertDesc x ys

/-- Stable descending sort by value (app.py lines 78–80). -/
def sortDesc (l : List (String × ℚ)) : List (String × ℚ) :=
  l.foldr insertDesc []

/-- The JSON payload of a successful `/predict` response (app.py lines
83–97). The formatted percentage strings and the wall-clock timestamp are
presentation of the same values and real time respectively and are not
modelled; `display_image` and `heatmap` are nullable exactly as in the JSON. -/
structure PredResponse where
  cls : ℕ
  class_name : String
  raw_confidence : ℚ
  probabilities : List (String × ℚ)
  sorted_probabilities : List (String × ℚ)
  class_info : Option ClassRecord
  display_image : Option (List Char)
  heatmap : Option GradcamRender

/-- Outcome of the `/predict` route body: the 400 decode-failure response,
the 500 prediction-failure response, or a success payload. -/
inductive AppResult where
  | decodeFailure
  | predictFailure
  | ok (r : PredResponse)

/-- The `/predict` handler (app.py lines 50–103) from the `try` block on
(the preceding request-shape checks concern the HTTP boundary, not the
pipeline). `imdecode`, `forward` and `camOf` are the byte decoder, the
model's forward pass and the raw Grad-CAM output of the external libraries;
`s` is the class-metadata registry, returned possibly mutated by
`get_class_info`. -/
def appPredict (imdecode : List ℕ → Option (Mat Pix3))
    (forward : Mat Q3 → Option (List ℚ))
    (camOf : Mat Q3 → ℕ → Option (Mat FP))
    (s : List ClassRecord) (bytes : List ℕ) : AppResult × List ClassRecord :=
  match preprocess imdecode bytes with
  | none => (.decodeFailure, s)
  | some t =>
    match predict (forward t) with
    | (some cls, some conf, some probs) =>
      let heat := generate_gradcam t (camOf t cls)
      let disp := prepare_for_display t
      let ci := get_class_info s cls
      (.ok { cls := cls
             class_name := class_names.getD cls ""
             raw_confidence := conf
             probabilities := probs
             sorted_probabilities := sortDesc probs
             class_info := ci.1
             display_image := disp
             heatmap := heat }, ci.2)
    | _ => (.predictFailure, s)

/-- Outcome of the `/class_info/<int:class_id>` route: the JSON of the
model's record, or the 404 `'Invalid class ID'` error. -/
inductive InfoResult where
  | payload (r : Option ClassRecord)
  | invalidId
deriving DecidableEq

/-- The `/class_info/<int:class_id>` route (app.py lines 105–115): indices
below `len(class_names)` are answered from `SkinCancerModel.get_class_info`,
all others get the 404 error. The Flask `int` converter only matches
nonnegative integers, so the index is a natural number. -/
def class_info_route (s : List ClassRecord) (i : ℕ) : InfoResult × List ClassRecord :=
  if i < class_names.length then
    let r := get_class_info s i
    (.payload r.1, r.2)
  else (.invalidId, s)

theorem maxOf_mem (x : ℚ) (xs : List ℚ) : maxOf x xs ∈ x :: xs := by
  induction xs generalizing x with
  | nil => simp [maxOf]
  | cons y ys ih =>
    have step : maxOf x (y :: ys) = maxOf (max x y) ys := by simp [maxOf]
    have h := List.mem_cons.mp (ih (max x y))
    rw [step]
    rcases h with h | h
    · rcases max_choice x y with hc | hc
      · rw [h, hc]; exact List.mem_cons_self _ _
      · rw [h, hc]; exact List.mem_cons.mpr (Or.inr (List.mem_cons_self _ _))
    · exact List.mem_cons.mpr (Or.inr (List.mem_cons.mpr (Or.inr h)))

theorem le_maxOf (x : ℚ) (xs : List ℚ) : ∀ v ∈ x :: xs, v ≤ maxOf x xs := by
  induction xs generalizing x with
  | nil =>
    intro v hv
    simp only [List.mem_singleton] at hv
    simp [maxOf, hv]
  | cons y ys ih =>
    intro v hv
    have step : maxOf x (y :: ys) = maxOf (max x y) ys := by simp [maxOf]
    rw [step]
    rcases List.mem_cons.mp hv with hv | hv
    · rw [hv]
      exact le_trans (le_max_left x y) (ih (max x y) (max x y) (List.mem_cons_self _ _))
    · rcases List.mem_cons.mp hv with hv | hv
      · rw [hv]
        exact le_trans (le_max_right x y) (ih (max x y) (max x y) (List.mem_cons_self _ _))
      · exact ih (max x y) v (List.mem_cons.mpr (Or.inr hv))

theorem getD_eq_getElem_zero (l : List ℚ) (j : ℕ) (h : j < l.length) :
    l.getD j 0 = l[j] :=
  List.getD_eq_getElem l 0 h

theorem argmaxIdx_spec (x : ℚ) (xs : List ℚ) :
    ∃ i, argmaxIdx (x :: xs) = some i ∧ i < (x :: xs).length ∧
      (∀ j, j < (x :: xs).length → (x :: xs).getD j 0 ≤ (x :: xs).getD i 0) ∧
      (∀ j, j < i → (x :: xs).getD j 0 < (x :: xs).getD i 0) := by
  have hex : ∃ v ∈ x :: xs, (fun v => decide (maxOf x xs ≤ v)) v = true :=
    ⟨maxOf x xs, maxOf_mem x xs, by simp⟩
  have hlt : (x :: xs).findIdx (fun v => decide (maxOf x xs ≤ v)) < (x :: xs).length :=
    List.findIdx_lt_length_of_exists hex
  have hp := @List.findIdx_getElem _ (fun v => decide (maxOf x xs ≤ v)) (x :: xs) hlt
  have hmax : maxOf x xs ≤
      (x :: xs).getD ((x :: xs).findIdx (fun v => decide (maxOf x xs ≤ v))) 0 := by
    rw [getD_eq_getElem_zero _ _ hlt]
    exact of_decide_eq_true hp
  refine ⟨(x :: xs).findIdx (fun v => decide (maxOf x xs ≤ v)), rfl, hlt, ?_, ?_⟩
  · intro j hj
    have hjle : (x :: xs).getD j 0 ≤ maxOf x xs := by
      rw [getD_eq_getElem_zero _ j hj]
      exact le_maxOf x xs _ (List.getElem_mem hj)
    exact le_trans hjle hmax
  · intro j hj
    have hjlt : j < (x :: xs).length := lt_trans hj hlt
    have hpf := List.not_of_lt_findIdx hj
    have hnot : ¬ maxOf x xs ≤ (x :: xs).getD j 0 := by
      rw [getD_eq_getElem_zero _ j hjlt]
      exact of_decide_eq_false hpf
    exact lt_of_lt_of_le (lt_of_not_le hnot) hmax

theorem predict_spec_aux (preds : List ℚ) (h7 : preds.length = 7) :
    ∃ i conf probs, predict (some preds) = (some i, some conf, some probs) ∧
      i < 7 ∧
      (∀ j, j < 7 → preds.getD j 0 ≤ preds.getD i 0) ∧
      (∀ j, j < i → preds.getD j 0 < preds.getD i 0) ∧
      conf = preds.getD i 0 * 100 ∧
      probs.map Prod.fst = class_names ∧
      probs.map Prod.snd = preds.map (fun p => p * 100) ∧
      probs.length = 7 := by
  match preds, h7 with
  | x :: xs, h7 =>
    obtain ⟨i, hi, hilt, hmax, htie⟩ := argmaxIdx_spec x xs
    have hlen : ((x :: xs).map (fun p => p * 100)).length = 7 := by
      rw [List.length_map]; exact h7
    refine ⟨i, (x :: xs).getD i 0 * 100,
      class_names.zip ((x :: xs).map (fun p => p * 100)), ?_, ?_, ?_, htie, rfl, ?_, ?_, ?_⟩
    · simp [predict, predictBody, hi, buildProbs, h7]
    · rw [h7] at hilt; exact hilt
    · intro j hj
      exact hmax j (by rw [h7]; exact hj)
    · exact List.map_fst_zip class_names _ (by rw [hlen]; decide)
    · exact List.map_snd_zip class_names _ (by rw [hlen]; decide)
    · rw [List.length_zip, hlen]; decide

/-- C2: for every 7-score model output, `SkinCancerModel.predict` returns as
class index the argmax of the scores with ties broken by the lowest index,
as confidence the selected score times 100, and a probability map with
exactly one class-name → percentage entry per class. -/
theorem predict_classify_spec (preds : List ℚ) (h7 : preds.length = 7) :
    ∃ i conf probs, predict (some preds) = (some i, some conf, some probs) ∧
      i < 7 ∧
      (∀ j, j < 7 → preds.getD j 0 ≤ preds.getD i 0) ∧
      (∀ j, j < i → preds.getD j 0 < preds.getD i 0) ∧
      conf = preds.getD i 0 * 100 ∧
      probs.map Prod.fst = class_names ∧
      probs.map Prod.snd = preds.map (fun p => p * 100) ∧
      probs.length = 7 :=
  predict_spec_aux preds h7

theorem predict_classify_spec_witness :
    [(3 : ℚ), 1, 3, 0, 2, 1, 0].length = 7 ∧
    ∃ i conf probs,
      predict (some [(3 : ℚ), 1, 3, 0, 2, 1, 0]) = (some i, some conf, some probs) ∧
      i < 7 ∧ conf = [(3 : ℚ), 1, 3, 0, 2, 1, 0].getD i 0 * 100 :=
  ⟨rfl, by
    obtain ⟨i, conf, probs, h1, h2, _, _, h5, _⟩ :=
      predict_classify_spec [(3 : ℚ), 1, 3, 0, 2, 1, 0] rfl
    exact ⟨i, conf, probs, h1, h2, h5⟩⟩

/-- C3: for every 7-score output of the model — which, per the spec, already
forms a probability distribution (the trained network ends in a softmax
layer; `generate_gradcam` replaces exactly that final activation by the
identity for the gradient pass) — the probability map of
`SkinCancerModel.predict` sums to exactly 100, hence to 100 within the 1e-2
tolerance; no further softmax is needed or applied. -/
theorem predict_probability_sum (preds : List ℚ) (h7 : preds.length = 7)
    (hdist : preds.sum = 1) :
    ∃ i conf probs, predict (some preds) = (some i, some conf, some probs) ∧
      (probs.map Prod.snd).sum = 100 ∧
      |(probs.map Prod.snd).sum - 100| ≤ 1 / 100 := by
  obtain ⟨i, conf, probs, hpred, _, _, _, _, _, hsnd, _⟩ := predict_classify_spec preds h7
  have hs : (probs.map Prod.snd).sum = 100 := by
    rw [hsnd]
    have h := List.sum_map_mul_right preds id (100 : ℚ)
    simp only [id] at h
    rw [h, List.map_id, hdist, one_mul]
  exact ⟨i, conf, probs, hpred, hs, by rw [hs]; norm_num⟩

theorem predict_probability_sum_witness :
    ([(1 : ℚ), 0, 0, 0, 0, 0, 0].length = 7 ∧ [(1 : ℚ), 0, 0, 0, 0, 0, 0].sum = 1) ∧
    ∃ i conf probs,
      predict (some [(1 : ℚ), 0, 0, 0, 0, 0, 0]) = (some i, some conf, some probs) ∧
      (probs.map Prod.snd).sum = 100 :=
  ⟨⟨rfl, by norm_num⟩, by
    obtain ⟨i, conf, probs, h1, h2, _⟩ :=
      predict_probability_sum [(1 : ℚ), 0, 0, 0, 0, 0, 0] rfl (by norm_num)
    exact ⟨i, conf, probs, h1, h2⟩⟩

/-- C10: `SkinCancerModel.predict` never returns a partial triple — for any
forward-pass outcome the result is either three `some` values or the
`(None, None, None)` of the `except` clause, so a `None` class index
detects failure of the whole triple. -/
theorem predict_all_or_nothing (forward : Option (List ℚ)) :
    (∃ i c p, predict forward = (some i, some c, some p)) ∨
      predict forward = (none, none, none) := by
  cases forward with
  | none => exact Or.inr rfl
  | some preds =>
    cases h : predictBody preds with
    | none => exact Or.inr (by simp [predict, h])
    | some t =>
      obtain ⟨i, c, p⟩ := t
      exact Or.inl ⟨i, c, p, by simp [predict, h]⟩

/-- C6: the `/class_info` query answers every index below 7 with that
class's stored metadata record (the record's own fields, plus the
`full_name` the model inserts), and every index from 7 on with the 404
`'Invalid class ID'` error and an unchanged registry — never a default or
empty record. -/
theorem class_info_route_spec (s : List ClassRecord) :
    (∀ i, i < 7 →
      (class_info_route s i).1 =
        .payload (some { s.getD i default with full_name := some (class_names.getD i "") })) ∧
    (∀ i, 7 ≤ i → class_info_route s i = (.invalidId, s)) := by
  have hcn : class_names.length = 7 := rfl
  constructor
  · intro i hi
    simp only [class_info_route, get_class_info, hcn, if_pos hi]
  · intro i hi
    simp only [class_info_route, hcn]
    rw [if_neg (by omega)]

theorem class_info_route_spec_witness :
    (class_info_route initRegistry 2).1 =
      .payload (some { initRegistry.getD 2 default with
        full_name := some (class_names.getD 2 "") }) ∧
    class_info_route initRegistry 9 = (.invalidId, initRegistry) :=
  ⟨(class_info_route_spec initRegistry).1 2 (by omega),
   (class_info_route_spec initRegistry).2 9 (by omega)⟩

/-- C8 (counterexample): the metadata registry is not left unmodified by the
metadata query — `get_class_info` assigns `info['full_name']` into the
stored dict itself, so after querying class 0 the registry differs from the
state built at startup. -/
theorem get_class_info_mutates :
    (get_class_info initRegistry 0).2 ≠ initRegistry := by decide

/-- C8 (amended): the registry is built once at startup, and the only
mutation any operation performs is that `get_class_info` on a valid index
inserts `full_name = class_names[i]` into the queried record: the registry
keeps its length, every other record is untouched, and the queried record
changes only in its `full_name` field. -/
theorem get_class_info_mutation_shape (s : List ClassRecord) (i : ℕ) (hi : i < 7)
    (hlen : i < s.length) :
    (get_class_info s i).2.length = s.length ∧
    (∀ j, j ≠ i → (get_class_info s i).2.getD j default = s.getD j default) ∧
    (get_class_info s i).2.getD i default =
      { s.getD i default with full_name := some (class_names.getD i "") } ∧
    (get_class_info s i).1 =
      some { s.getD i default with full_name := some (class_names.getD i "") } := by
  unfold get_class_info
  rw [if_pos hi]
  refine ⟨?_, ?_, ?_, ?_⟩
  · simp
  · intro j hj
    simp [List.getD_eq_getElem?_getD, List.getElem?_set_ne (Ne.symm hj)]
  · simp [List.getD_eq_getElem?_getD, List.getElem?_set_self hlen]
  · rfl

theorem get_class_info_mutation_shape_witness :
    ((0 : ℕ) < 7 ∧ 0 < initRegistry.length) ∧
    (get_class_info initRegistry 0).2.length = initRegistry.length ∧
    (get_class_info initRegistry 0).1 =
      some { initRegistry.getD 0 default with
        full_name := some (class_names.getD 0 "") } :=
  ⟨⟨by omega, by decide⟩, by
    obtain ⟨h1, _, _, h4⟩ :=
      get_class_info_mutation_shape initRegistry 0 (by omega) (by decide)
    exact ⟨h1, h4⟩⟩

theorem fpMin2_none_left (x : FP) : fpMin2 none x = none := by cases x <;> rfl

theorem fpMax2_none_left (x : FP) : fpMax2 none x = none := by cases x <;> rfl

theorem fpSub_none_right (x : FP) : fpSub x none = none := by cases x <;> rfl

theorem fpDiv_none_left (z : FP) : fpDiv none z = none := by cases z <;> rfl

theorem foldl_fpMin2_none (ys : List FP) : ys.foldl fpMin2 none = none := by
  induction ys with
  | nil => rfl
  | cons y ys ih => rw [List.foldl_cons, fpMin2_none_left]; exact ih

theorem foldl_fpMin2_mem_none (xs : List FP) (h : none ∈ xs) :
    ∀ acc, xs.foldl fpMin2 acc = none := by
  induction xs with
  | nil => simp at h
  | cons y ys ih =>
    intro acc
    rw [List.foldl_cons]
    rcases List.mem_cons.mp h with h1 | h1
    · rw [← h1]
      have hy : fpMin2 acc none = none := by cases acc <;> rfl
      rw [hy]; exact foldl_fpMin2_none ys
    · exact ih h1 _

theorem listFpMin_none (l : List FP) (h : none ∈ l) : listFpMin l = none := by
  cases l with
  | nil => rfl
  | cons x xs =>
    show xs.foldl fpMin2 x = none
    rcases List.mem_cons.mp h with h1 | h1
    · rw [← h1]; exact foldl_fpMin2_none xs
    · exact foldl_fpMin2_mem_none xs h1 x

theorem tkvNormalize_propagates (cam : Mat FP) (h : none ∈ cells cam) :
    ∀ row ∈ tkvNormalize cam, ∀ y ∈ row, y = none := by
  intro row hrow y hy
  have hmn : listFpMin (cells cam) = none := listFpMin_none _ h
  simp only [tkvNormalize] at hrow
  obtain ⟨row0, _, rfl⟩ := List.mem_map.mp hrow
  obtain ⟨x, _, rfl⟩ := List.mem_map.mp hy
  rw [hmn, fpSub_none_right, fpDiv_none_left]

/-- C7 (counterexample): a Grad-CAM map with a non-finite (NaN) cell is not
rejected — `generate_gradcam` normalizes and renders it and returns a
successful result, whose heatmap still contains a non-finite value, instead
of failing. -/
theorem generate_gradcam_no_finiteness_check :
    generate_gradcam [[((0 : ℚ), (0 : ℚ), (0 : ℚ))]] (some [[some 1, none]]) =
      some ⟨[[((0 : ℚ), (0 : ℚ), (0 : ℚ))]], tkvNormalize [[some 1, none]]⟩ ∧
    generate_gradcam [[((0 : ℚ), (0 : ℚ), (0 : ℚ))]] (some [[some 1, none]]) ≠ none ∧
    none ∈ cells (tkvNormalize [[some 1, none]]) := by
  refine ⟨rfl, ?_, by decide⟩
  simp [generate_gradcam]

/-- C7 (amended): `generate_gradcam` contains no finiteness check: whenever
the library's raw Grad-CAM output has a non-finite value, the call still
succeeds and returns the rendered figure, in which every cell of the
normalized heatmap is non-finite — the NaN propagates silently through the
min/max normalization instead of triggering any error. -/
theorem generate_gradcam_propagates_nonfinite (image : Mat Q3) (cam : Mat FP)
    (h : none ∈ cells cam) :
    generate_gradcam image (some cam) = some ⟨image, tkvNormalize cam⟩ ∧
    ∀ row ∈ tkvNormalize cam, ∀ y ∈ row, y = none :=
  ⟨rfl, tkvNormalize_propagates cam h⟩

theorem generate_gradcam_propagates_nonfinite_witness :
    (none ∈ cells [[(none : FP)]]) ∧
    generate_gradcam [[((1 : ℚ), (1 : ℚ), (1 : ℚ))]] (some [[none]]) =
      some ⟨[[((1 : ℚ), (1 : ℚ), (1 : ℚ))]], tkvNormalize [[none]]⟩ :=
  ⟨by decide,
   (generate_gradcam_propagates_nonfinite [[((1 : ℚ), (1 : ℚ), (1 : ℚ))]] [[none]] (by decide)).1⟩

/-- C4: for every byte stream the decoder cannot decode, `preprocess` fails
(returns the `None` of its decode-error path) and the `/predict` handler
answers with the decode-failure response without invoking the classifier:
the outcome is the same for every possible forward pass and Grad-CAM
outcome, and the registry is untouched. -/
theorem preprocess_decode_failure (imdecode : List ℕ → Option (Mat Pix3))
    (bytes : List ℕ) (hdec : imdecode bytes = none) :
    preprocess imdecode bytes = none ∧
    ∀ forward camOf s,
      appPredict imdecode forward camOf s bytes = (.decodeFailure, s) := by
  have hp : preprocess imdecode bytes = none := by simp [preprocess, hdec]
  exact ⟨hp, fun forward camOf s => by simp [appPredict, hp]⟩

theorem preprocess_decode_failure_witness :
    ((fun _ : List ℕ => (none : Option (Mat Pix3))) [] = none) ∧
    preprocess (fun _ => none) [] = none ∧
    appPredict (fun _ => none) (fun _ => none) (fun _ _ => none) initRegistry [] =
      (.decodeFailure, initRegistry) := by
  obtain ⟨h1, h2⟩ := preprocess_decode_failure (fun _ => none) [] rfl
  exact ⟨rfl, h1, h2 _ _ _⟩

/-- C5 (code bug): `prepare_for_display` never succeeds, because
`app/utils.py` evaluates `base64.b64encode` without ever importing
`base64`: the `NameError` is swallowed by the blanket `except` and the
function returns `None` for every tensor — in particular for every
preprocessed image, so the claimed display round trip fails on all inputs. -/
theorem prepare_for_display_always_fails :
    prepare_for_display (preprocessCore [[(0, 0, 0)]]) = none ∧
    ∀ t : Mat Q3, prepare_for_display t = none :=
  ⟨rfl, fun _ => rfl⟩

theorem predictBody_eq (x : ℚ) (xs : List ℚ) (hlen : (x :: xs).length ≤ 7) :
    predictBody (x :: xs) =
      some ((x :: xs).findIdx (fun v => decide (maxOf x xs ≤ v)),
        (x :: xs).getD ((x :: xs).findIdx (fun v => decide (maxOf x xs ≤ v))) 0 * 100,
        class_names.zip ((x :: xs).map (fun p => p * 100))) := by
  have h6 : xs.length ≤ 6 := by simpa using hlen
  simp [predictBody, argmaxIdx, buildProbs, h6]

/-- C9: when classification succeeds and the Grad-CAM generation fails, the
`/predict` handler still returns the success payload carrying the full
classification output, with the `heatmap` field null, instead of failing
the request. -/
theorem appPredict_partial_explanation (imdecode : List ℕ → Option (Mat Pix3))
    (forward : Mat Q3 → Option (List ℚ)) (camOf : Mat Q3 → ℕ → Option (Mat FP))
    (s : List ClassRecord) (bytes : List ℕ) (image : Mat Pix3) (preds : List ℚ)
    (hdec : imdecode bytes = some image)
    (hfwd : forward (preprocessCore image) = some preds)
    (hne : preds ≠ []) (hlen : preds.length ≤ 7)
    (hgc : ∀ c, camOf (preprocessCore image) c = none) :
    ∃ r s', appPredict imdecode forward camOf s bytes = (.ok r, s') ∧
      r.heatmap = none ∧
      predict (forward (preprocessCore image)) =
        (some r.cls, some r.raw_confidence, some r.probabilities) := by
  match preds, hne, hfwd, hlen with
  | x :: xs, _, hfwd, hlen =>
    have hb := predictBody_eq x xs hlen
    have hpre : preprocess imdecode bytes = some (preprocessCore image) := by
      simp [preprocess, hdec]
    have hpr : predict (forward (preprocessCore image)) =
        (some ((x :: xs).findIdx (fun v => decide (maxOf x xs ≤ v))),
         some ((x :: xs).getD ((x :: xs).findIdx (fun v => decide (maxOf x xs ≤ v))) 0 * 100),
         some (class_names.zip ((x :: xs).map (fun p => p * 100)))) := by
      rw [hfwd]
      simp [predict, hb]
    obtain ⟨i0, c0, p0, hpr'⟩ :
        ∃ i0 c0 p0, predict (forward (preprocessCore image)) =
          (some i0, some c0, some p0) := ⟨_, _, _, hpr⟩
    refine ⟨⟨i0, class_names.getD i0 "", c0, p0, sortDesc p0, (get_class_info s i0).1,
        prepare_for_display (preprocessCore image),
        generate_gradcam (preprocessCore image) (camOf (preprocessCore image) i0)⟩,
      (get_class_info s i0).2, ?_, ?_, hpr'⟩
    · simp only [appPredict, hpre, hpr']
    · show generate_gradcam _ (camOf _ i0) = none
      rw [hgc i0]
      rfl

/-- All entries of a single-channel image are valid `uint8` values. -/
def PixLe (g : Mat ℕ) : Prop := ∀ row ∈ g, ∀ v ∈ row, v ≤ 255

theorem getD_le_255 {l : List ℕ} (h : ∀ v ∈ l, v ≤ 255) (i d : ℕ) (hd : d ≤ 255) :
    l.getD i d ≤ 255 := by
  rw [List.getD_eq_getElem?_getD]
  cases hg : l[i]? with
  | none => simpa using hd
  | some v => simpa using h v (List.getElem?_mem hg)

theorem minLevel_le (g : Mat ℕ) : minLevel g ≤ 255 := by
  unfold minLevel
  cases hf : (List.range 256).find? (fun v => decide (0 < histCount g v)) with
  | none => simp
  | some v =>
    have hv : v < 256 := List.mem_range.mp (List.mem_of_find?_eq_some hf)
    simp only [Option.getD_some]
    omega

theorem equalizeHist_le (g : Mat ℕ) : PixLe (equalizeHist g) := by
  intro row hrow v hv
  unfold equalizeHist at hrow
  split at hrow
  · obtain ⟨row0, _, rfl⟩ := List.mem_map.mp hrow
    obtain ⟨_, _, rfl⟩ := List.mem_map.mp hv
    exact minLevel_le g
  · obtain ⟨row0, _, rfl⟩ := List.mem_map.mp hrow
    obtain ⟨x, _, rfl⟩ := List.mem_map.mp hv
    unfold eqLut
    split
    · omega
    · exact min_le_left _ _

theorem at2_le (g : Mat ℕ) (hg : PixLe g) (y x : ℕ) : at2 g y x ≤ 255 := by
  unfold at2
  have hrow : ∀ v ∈ g.getD y [], v ≤ 255 := by
    rw [List.getD_eq_getElem?_getD]
    cases hgy : g[y]? with
    | none => simp
    | some row => simpa using hg row (List.getElem?_mem hgy)
  exact getD_le_255 hrow x 0 (by omega)

theorem roundQ_le (x : ℚ) (M : ℕ) (hx : x ≤ M) : roundQ x ≤ M := by
  unfold roundQ
  rw [Int.toNat_le]
  have h2 : ⌊x + 1/2⌋ < (M : ℤ) + 1 := by
    rw [Int.floor_lt]
    push_cast
    linarith
  omega

theorem srcIndex_frac (srcLen dstLen i : ℕ) :
    0 ≤ (srcIndex srcLen dstLen i).2 ∧ (srcIndex srcLen dstLen i).2 ≤ 1 := by
  unfold srcIndex
  split
  · simp
  · split
    · simp
    · constructor
      · rw [Int.self_sub_floor]
        exact Int.fract_nonneg (((i : ℚ) + 1/2) * srcLen / dstLen - 1/2)
      · rw [Int.self_sub_floor]
        exact le_of_lt (Int.fract_lt_one (((i : ℚ) + 1/2) * srcLen / dstLen - 1/2))

theorem convex_comb_bounds (t a b : ℚ) (ht0 : 0 ≤ t) (ht1 : t ≤ 1)
    (ha0 : 0 ≤ a) (ha : a ≤ 255) (hb0 : 0 ≤ b) (hb : b ≤ 255) :
    0 ≤ (1 - t) * a + t * b ∧ (1 - t) * a + t * b ≤ 255 := by
  have h1 : (1 - t) * a ≤ (1 - t) * 255 := by nlinarith
  have h2 : t * b ≤ t * 255 := by nlinarith
  have h3 : 0 ≤ (1 - t) * a := by nlinarith
  have h4 : 0 ≤ t * b := by nlinarith
  constructor
  · linarith
  · nlinarith

theorem bilinearAt_le (g : Mat ℕ) (hg : PixLe g) (h w i j : ℕ) :
    bilinearAt g h w i j ≤ 255 := by
  unfold bilinearAt
  obtain ⟨hdy0, hdy1⟩ := srcIndex_frac h 224 i
  obtain ⟨hdx0, hdx1⟩ := srcIndex_frac w 224 j
  have hcast : ∀ y x : ℕ, (0 : ℚ) ≤ (at2 g y x : ℚ) ∧ ((at2 g y x : ℚ)) ≤ 255 := by
    intro y x
    exact ⟨Nat.cast_nonneg _, by exact_mod_cast at2_le g hg y x⟩
  obtain ⟨ha0, ha⟩ := hcast (srcIndex h 224 i).1 (srcIndex w 224 j).1
  obtain ⟨hb0, hb⟩ := hcast (srcIndex h 224 i).1 ((srcIndex w 224 j).1 + 1)
  obtain ⟨hc0, hc⟩ := hcast ((srcIndex h 224 i).1 + 1) (srcIndex w 224 j).1
  obtain ⟨hd0, hd⟩ := hcast ((srcIndex h 224 i).1 + 1) ((srcIndex w 224 j).1 + 1)
  obtain ⟨hx0, hx1⟩ := convex_comb_bounds _ _ _ hdx0 hdx1 ha0 ha hb0 hb
  obtain ⟨hy0, hy1⟩ := convex_comb_bounds _ _ _ hdx0 hdx1 hc0 hc hd0 hd
  obtain ⟨_, hfin⟩ := convex_comb_bounds _ _ _ hdy0 hdy1 hx0 hx1 hy0 hy1
  exact roundQ_le _ 255 hfin

theorem channelB_gray2rgb (g : Mat ℕ) : channelB (cvtColorGRAY2RGB g) = g := by
  have h : ((fun p : Pix3 => p.1) ∘ fun v : ℕ => (v, v, v)) = id := rfl
  simp [channelB, cvtColorGRAY2RGB, List.map_map, h]

theorem channelG_gray2rgb (g : Mat ℕ) : channelG (cvtColorGRAY2RGB g) = g := by
  have h : ((fun p : Pix3 => p.2.1) ∘ fun v : ℕ => (v, v, v)) = id := rfl
  simp [channelG, cvtColorGRAY2RGB, List.map_map, h]

theorem channelR_gray2rgb (g : Mat ℕ) : channelR (cvtColorGRAY2RGB g) = g := by
  have h : ((fun p : Pix3 => p.2.2) ∘ fun v : ℕ => (v, v, v)) = id := rfl
  simp [channelR, cvtColorGRAY2RGB, List.map_map, h]

theorem resize224_shape (m : Mat Pix3) :
    (resize224 m).length = 224 ∧ ∀ row ∈ resize224 m, row.length = 224 := by
  constructor
  · simp [resize224]
  · intro row hrow
    simp only [resize224] at hrow
    obtain ⟨i, _, rfl⟩ := List.mem_map.mp hrow
    simp

theorem resize224_gray_le (g : Mat ℕ) :
    ∀ row ∈ resize224 (cvtColorGRAY2RGB (equalizeHist g)), ∀ p ∈ row,
      p.1 ≤ 255 ∧ p.2.1 ≤ 255 ∧ p.2.2 ≤ 255 := by
  intro row hrow p hp
  simp only [resize224] at hrow
  obtain ⟨i, _, rfl⟩ := List.mem_map.mp hrow
  obtain ⟨j, _, rfl⟩ := List.mem_map.mp hp
  rw [channelB_gray2rgb, channelG_gray2rgb, channelR_gray2rgb]
  exact ⟨bilinearAt_le _ (equalizeHist_le g) _ _ _ _,
    bilinearAt_le _ (equalizeHist_le g) _ _ _ _,
    bilinearAt_le _ (equalizeHist_le g) _ _ _ _⟩

/-- The interval every standardized channel value lies in: the image of
`[0,1]` under `x ↦ (x − mean)/std`, channel by channel. In the exact
rational embedding this in particular witnesses that every tensor value is
finite. -/
def StdBound (q : Q3) : Prop :=
  (0 - meanCh.getD 0 0) / stdCh.getD 0 1 ≤ q.1 ∧
    q.1 ≤ (1 - meanCh.getD 0 0) / stdCh.getD 0 1 ∧
  (0 - meanCh.getD 1 0) / stdCh.getD 1 1 ≤ q.2.1 ∧
    q.2.1 ≤ (1 - meanCh.getD 1 0) / stdCh.getD 1 1 ∧
  (0 - meanCh.getD 2 0) / stdCh.getD 2 1 ≤ q.2.2 ∧
    q.2.2 ≤ (1 - meanCh.getD 2 0) / stdCh.getD 2 1

theorem std_entry_bounds (p : ℕ) (hp : p ≤ 255) (mi si : ℚ) (hs : 0 < si) :
    (0 - mi) / si ≤ ((p : ℚ) / 255 - mi) / si ∧
    ((p : ℚ) / 255 - mi) / si ≤ (1 - mi) / si := by
  have h0 : (0 : ℚ) ≤ (p : ℚ) / 255 := by positivity
  have h1 : (p : ℚ) / 255 ≤ 1 := by
    rw [div_le_one (by norm_num : (0 : ℚ) < 255)]
    exact_mod_cast hp
  exact ⟨(div_le_div_iff_of_pos_right hs).mpr (by linarith),
    (div_le_div_iff_of_pos_right hs).mpr (by linarith)⟩

theorem standardize_scale01_bound (m : Mat Pix3)
    (hm : ∀ row ∈ m, ∀ p ∈ row, p.1 ≤ 255 ∧ p.2.1 ≤ 255 ∧ p.2.2 ≤ 255) :
    ∀ row ∈ standardize (scale01 m), ∀ q ∈ row, StdBound q := by
  intro row hrow q hq
  simp only [standardize, scale01, List.map_map] at hrow
  obtain ⟨row0, hrow0, rfl⟩ := List.mem_map.mp hrow
  simp only [Function.comp, List.map_map] at hq
  obtain ⟨p, hp, rfl⟩ := List.mem_map.mp hq
  obtain ⟨hb, hg, hr⟩ := hm row0 hrow0 p hp
  refine ⟨?_, ?_, ?_, ?_, ?_, ?_⟩
  · exact (std_entry_bounds p.1 hb _ _ (by norm_num [stdCh])).1
  · exact (std_entry_bounds p.1 hb _ _ (by norm_num [stdCh])).2
  · exact (std_entry_bounds p.2.1 hg _ _ (by norm_num [stdCh])).1
  · exact (std_entry_bounds p.2.1 hg _ _ (by norm_num [stdCh])).2
  · exact (std_entry_bounds p.2.2 hr _ _ (by norm_num [stdCh])).1
  · exact (std_entry_bounds p.2.2 hr _ _ (by norm_num [stdCh])).2

/-- C1: for every byte stream the decoder decodes successfully, `preprocess`
succeeds and is exactly the ordered composition: grayscale conversion,
histogram equalization, replication to 3 identical channels, 224×224
bilinear resize, scaling of [0,255] into [0,1], and per-channel
standardization with means (0.485, 0.456, 0.406) and stds
(0.229, 0.224, 0.225); the result has exactly 224 rows of 224 pixels of 3
channels, and every value is finite, lying in its channel's fixed interval
[(0−mean)/std, (1−mean)/std]. -/
theorem preprocess_pipeline_spec (imdecode : List ℕ → Option (Mat Pix3))
    (bytes : List ℕ) (image : Mat Pix3) (hdec : imdecode bytes = some image) :
    preprocess imdecode bytes =
      some (standardize (scale01 (resize224 (cvtColorGRAY2RGB
        (equalizeHist (cvtColorBGR2GRAY image)))))) ∧
    (preprocessCore image).length = 224 ∧
    (∀ row ∈ preprocessCore image, row.length = 224) ∧
    (∀ row ∈ preprocessCore image, ∀ q ∈ row, StdBound q) := by
  refine ⟨by simp [preprocess, hdec, preprocessCore], ?_, ?_, ?_⟩
  · unfold preprocessCore standardize scale01
    rw [List.length_map, List.length_map]
    exact (resize224_shape _).1
  · intro row hrow
    unfold preprocessCore standardize scale01 at hrow
    rw [List.map_map] at hrow
    obtain ⟨row0, hrow0, rfl⟩ := List.mem_map.mp hrow
    simp only [Function.comp, List.length_map]
    exact (resize224_shape _).2 row0 hrow0
  · exact standardize_scale01_bound _ (resize224_gray_le (cvtColorBGR2GRAY image))

theorem preprocess_pipeline_spec_witness :
    ((fun _ : List ℕ => some [[((0 : ℕ), (0 : ℕ), (0 : ℕ))]]) [] =
      some [[((0 : ℕ), (0 : ℕ), (0 : ℕ))]]) ∧
    preprocess (fun _ => some [[(0, 0, 0)]]) [] =
      some (standardize (scale01 (resize224 (cvtColorGRAY2RGB
        (equalizeHist (cvtColorBGR2GRAY [[(0, 0, 0)]])))))) ∧
    (preprocessCore [[(0, 0, 0)]]).length = 224 :=
  ⟨rfl, by
    obtain ⟨h1, h2, _, _⟩ :=
      preprocess_pipeline_spec (fun _ => some [[(0, 0, 0)]]) [] [[(0, 0, 0)]] rfl
    exact ⟨h1, h2⟩⟩

theorem appPredict_partial_explanation_witness :
    ((fun _ : List ℕ => some [[((0 : ℕ), (0 : ℕ), (0 : ℕ))]]) [] =
        some [[((0 : ℕ), (0 : ℕ), (0 : ℕ))]] ∧
      [(1 : ℚ), 0, 0, 0, 0, 0, 0] ≠ [] ∧
      [(1 : ℚ), 0, 0, 0, 0, 0, 0].length ≤ 7) ∧
    ∃ r s', appPredict (fun _ => some [[(0, 0, 0)]])
        (fun _ => some [(1 : ℚ), 0, 0, 0, 0, 0, 0]) (fun _ _ => none)
        initRegistry [] = (.ok r, s') ∧
      r.heatmap = none ∧
      predict (some [(1 : ℚ), 0, 0, 0, 0, 0, 0]) =
        (some r.cls, some r.raw_confidence, some r.probabilities) :=
  ⟨⟨rfl, by decide, by decide⟩, by
    obtain ⟨r, s', h1, h2, h3⟩ :=
      appPredict_partial_explanation (fun _ => some [[(0, 0, 0)]])
        (fun _ => some [(1 : ℚ), 0, 0, 0, 0, 0, 0]) (fun _ _ => none)
        initRegistry [] [[(0, 0, 0)]] [(1 : ℚ), 0, 0, 0, 0, 0, 0]
        rfl rfl (by decide) (by decide) (fun _ => rfl)
    exact ⟨r, s', h1, h2, h3⟩⟩
